import Mathlib

/-!
Verification of `collector.py` (GitHub repository-metadata collector).

Shallow embedding: each Python function that the claims touch is translated
into a Lean definition over explicit inputs.  Network fetches are modelled by
passing their outcomes (success value or `none` for an unavailable resource)
as parameters.  Python exceptions are modelled with `Except PyError`.
-/

/-- Exceptions that the embedded code can raise. -/
inductive PyError where
  | typeError (msg : String)
  | zeroDivision
deriving DecidableEq, Repr

/-- Models Python `round(x, 2)` on the exact rational value: round to the
nearest multiple of 1/100.  Python rounds binary floats half-to-even; the
model uses Mathlib `round` (half-up).  They differ only at exact `.xx5` ties,
which no theorem below depends on (all bounds used are `≤ 1/2` on the scaled
error, valid for both). -/
def round2 (q : ℚ) : ℚ :=
  ((round (q * 100) : ℤ) : ℚ) / 100

/-- One entry of the formatted language breakdown
(`format_languages`, collector.py lines 300-307). -/
structure LanguageEntry where
  language : String
  bytes : ℕ
  percentage : ℚ
deriving DecidableEq, Repr

/-- The dict returned by `format_languages` (collector.py lines 308-312). -/
structure LanguageBreakdown where
  total_bytes : ℕ
  languages : List LanguageEntry
  description : String
deriving DecidableEq, Repr

/-- Python dict of languages → bytes, as an insertion-ordered association
list (keys distinct in a real dict; nothing below needs that).  `none` models
the `None` returned by a failed `get_repo_languages` fetch. -/
abbrev LangMap := Option (List (String × ℕ))

/-- The fixed description string of the breakdown (collector.py line 311). -/
def langDescription : String :=
  "The bytes field represents the total number of bytes of code written in this language, and percentage shows its proportion relative to the total."

/-- Function `format_languages` (collector.py lines 289-312).
`if not languages: return None` covers both `None` and the empty dict.
`sorted(..., key=lambda x: x[1], reverse=True)` is a stable descending sort
by byte count, modelled by `List.mergeSort` with `b.2 ≤ a.2`.
When the dict is non-empty but every byte count is 0, the Python list
comprehension evaluates `bytes_used / total_bytes` with `total_bytes = 0`
and raises `ZeroDivisionError`; the guard below models exactly that. -/
def format_languages (languages : LangMap) : Except PyError (Option LanguageBreakdown) :=
  match languages with
  | none => .ok none
  | some l =>
    if l.isEmpty then .ok none
    else
      let total_bytes := (l.map (fun p => p.2)).sum
      if total_bytes = 0 then .error .zeroDivision
      else .ok (some {
        total_bytes := total_bytes
        languages := (l.mergeSort (fun a b => decide (b.2 ≤ a.2))).map (fun p =>
          { language := p.1
            bytes := p.2
            percentage := round2 (((p.2 : ℚ)) / ((total_bytes : ℚ)) * 100) })
        description := langDescription })

/-- The metadata dict built by `get_repo_metadata` (collector.py lines 79-94).
Fields that the source can set to `None` are `Option`-valued.
`contributors_count` comes from the HTML scrape (`get_contributors_from_html`),
an `int` or `None`. -/
structure Metadata where
  name : String
  owner : String
  organization : Option String
  stars : ℤ
  watchers : ℤ
  forks : ℤ
  open_issues : ℤ
  default_branch : String
  description : Option String
  html_url : Option String
  keywords : Option (List String)
  contributors_count : Option ℕ
  readme : Option String
  labels_count : Option ℕ
deriving DecidableEq, Repr

/-- The `organized_data` dict built by `process_repo`
(collector.py lines 357-373).  A field that the source fills with either a
value or a placeholder string is a `Sum`. -/
structure RepositoryRecord where
  name : String
  owner : String
  organization : Option String
  stars : ℤ
  watchers : ℤ
  forks : ℤ
  open_issues : ℤ
  default_branch : String
  description : String
  html_url : String
  contributors_count : ℕ
  keywords : Option (List String)
  languages_info : Option LanguageBreakdown ⊕ String
  readme : String
  labels_count : ℕ ⊕ String
deriving DecidableEq, Repr

/-- Python `x if x else default` on an optional string:
`None` and the empty string are falsy. -/
def pyStrDefault (v : Option String) (d : String) : String :=
  match v with
  | some s => if s.isEmpty then d else s
  | none => d

/-- Python `x if x else default` on an optional int count:
`None` and `0` are falsy (collector.py line 372). -/
def pyLabelsDefault (v : Option ℕ) : ℕ ⊕ String :=
  match v with
  | some n => if n ≠ 0 then .inl n else .inr "Labels não disponíveis"
  | none => .inr "Labels não disponíveis"

/-- Truthiness of the `languages` fetch result: `None` and `{}` are falsy. -/
def pyTruthyLangs (languages : LangMap) : Bool :=
  match languages with
  | none => false
  | some l => !l.isEmpty

/-- Expression `format_languages(languages) if languages else "Linguagens não disponíveis"`
(collector.py line 370). -/
def languagesInfo (languages : LangMap) :
    Except PyError (Option LanguageBreakdown ⊕ String) :=
  if pyTruthyLangs languages then (format_languages languages).map Sum.inl
  else .ok (Sum.inr "Linguagens não disponíveis")

/-- The filter condition of collector.py line 352 for a present count `c`:
`min_contributors is not None and contributors_count < min_contributors`. -/
def belowMin (c : ℕ) (min_contributors : Option ℤ) : Bool :=
  match min_contributors with
  | some m => decide ((c : ℤ) < m)
  | none => false

/-- The record built at collector.py lines 357-373, given the metadata, the
contributor count that survived the filter, and the computed
`languages_info` field. -/
def mkRecord (md : Metadata) (c : ℕ) (li : Option LanguageBreakdown ⊕ String) :
    RepositoryRecord :=
  { name := md.name
    owner := md.owner
    organization := md.organization
    stars := md.stars
    watchers := md.watchers
    forks := md.forks
    open_issues := md.open_issues
    default_branch := md.default_branch
    description := pyStrDefault md.description "Descrição não disponível"
    html_url := pyStrDefault md.html_url "Link não disponível"
    contributors_count := c
    keywords := md.keywords
    languages_info := li
    readme := pyStrDefault md.readme "README não disponível"
    labels_count := pyLabelsDefault md.labels_count }

/-- Function `process_repo` (collector.py lines 332-375).  The two fetches it performs
(`get_repo_metadata`, `get_repo_languages`) are passed in as their outcomes.
When `metadata` is `None`, line 351 evaluates
`metadata["contributors_count"]` and Python raises `TypeError`.
Line 352: `if contributors_count is None or (min_contributors is not None
and contributors_count < min_contributors): return None`. -/
def process_repo (metadata : Option Metadata) (languages : LangMap)
    (min_contributors : Option ℤ) : Except PyError (Option RepositoryRecord) :=
  match metadata with
  | none => .error (.typeError "TypeError: NoneType object is not subscriptable")
  | some md =>
    match md.contributors_count with
    | none => .ok none
    | some c =>
      if belowMin c min_contributors then .ok none
      else
        match languagesInfo languages with
        | .error e => .error e
        | .ok li => .ok (some (mkRecord md c li))

/-- Constant `max_pages` of `get_repo_contributors` (collector.py line 152). -/
def maxPages : ℕ := 10

/-- Constant `estimation_threshold` of `get_repo_contributors` (collector.py line 153). -/
def estimationThreshold : ℕ := 400

/-- Outcome of one contributors-page request (collector.py lines 162-183):
a decoded JSON list (200), a 403 rate limit, or any other non-200 status. -/
inductive ContribPage where
  | ok (contributors : List String)
  | rateLimited
  | otherError
deriving DecidableEq

/-- The dict returned by `get_repo_contributors`
(collector.py lines 174-177 and 185-188). -/
structure ContribCount where
  contributors_count : ℕ
  estimated : Bool
deriving DecidableEq, Repr

/-- Control-flow outcome of the `while True` loop of `get_repo_contributors`
(collector.py lines 161-183), before the return dicts are built:
`exact` for the empty-page break, `estimatedAt page total` for the early
return at line 170 (recording the loop state at that return point),
`unavailable` for the 403 / other-error returns.  `fuelOut` is the
fuel-exhaustion marker of the embedding; from the real entry state
(page 1, fuel `maxPages + 1`) it is unreachable, because the loop only
continues while the incremented page stays `≤ maxPages`. -/
inductive ContribRaw where
  | exact (total : ℕ)
  | estimatedAt (page total : ℕ)
  | unavailable
  | fuelOut
deriving DecidableEq, Repr

/-- The `while True` loop of `get_repo_contributors` (collector.py
lines 161-183).  `resp page` is the outcome of the request for that page.
After a non-empty page the source increments `page`, adds the page length to
`total_contributors`, and returns the estimate when
`page > max_pages or total_contributors > estimation_threshold`. -/
def contribLoop (resp : ℕ → ContribPage) : ℕ → ℕ → ℕ → ContribRaw
  | 0, _, _ => .fuelOut
  | fuel + 1, page, total =>
    match resp page with
    | .ok contributors =>
      if contributors.isEmpty then .exact total
      else
        let total2 := total + contributors.length
        let page2 := page + 1
        if maxPages < page2 ∨ estimationThreshold < total2 then
          .estimatedAt page2 total2
        else
          contribLoop resp fuel page2 total2
    | .rateLimited => .unavailable
    | .otherError => .unavailable

/-- The return dicts of `get_repo_contributors`: line 171 computes
`estimated_contributors = total_contributors / (page - 1) * page` (exact
rational arithmetic; `int(...)` truncates, which for the non-negative values
here is the floor), lines 185-188 return the exact total. -/
def renderContrib : ContribRaw → Option ContribCount
  | .exact total => some ⟨total, false⟩
  | .estimatedAt page total =>
      some ⟨(⌊(total : ℚ) / ((page : ℚ) - 1) * (page : ℚ)⌋).toNat, true⟩
  | .unavailable => none
  | .fuelOut => none

/-- Function `get_repo_contributors` (collector.py lines 139-188): run the loop from
`page = 1`, `total_contributors = 0`.  Fuel `maxPages + 1` strictly bounds
the loop depth (the loop recurses only while `page + 1 ≤ maxPages`). -/
def get_repo_contributors (resp : ℕ → ContribPage) : Option ContribCount :=
  renderContrib (contribLoop resp (maxPages + 1) 1 0)

/-- Returns `true` unless the settled future raised (collector.py line 459 reaching
line 462's `except`). -/
def isOkOutcome (o : Except PyError (Option RepositoryRecord)) : Bool :=
  match o with
  | .error _ => false
  | .ok _ => true

/-- The record a settled item contributes to the output: `some` only when
it neither raised nor was excluded. -/
def okRecord (o : Except PyError (Option RepositoryRecord)) :
    Option RepositoryRecord :=
  match o with
  | .ok (some data) => some data
  | _ => none

/-- The aggregation loop of `main` (collector.py lines 457-464), over the
settled outcomes of the futures in settlement order:
`data = future.result()` re-raises an exception, caught by the `except`
branch (logged, item omitted); `if data:` appends only a non-`None` record
(a non-empty dict is truthy). -/
def collect_results (outcomes : List (Except PyError (Option RepositoryRecord))) :
    List RepositoryRecord :=
  outcomes.foldl (fun all_metadata o =>
    match o with
    | .ok (some data) => all_metadata ++ [data]
    | _ => all_metadata) []

/-- Assignment `num_threads = config.get("threads", cpu_count // 2)`
(collector.py lines 431-432). -/
def num_threads (config_threads : Option ℕ) (cpu_count : ℕ) : ℕ :=
  config_threads.getD (cpu_count / 2)

/-- Sum of the percentages of a formatted language breakdown. -/
def pctSum (b : LanguageBreakdown) : ℚ :=
  (b.languages.map (fun e => e.percentage)).sum

/-- The percentage sum of a `format_languages` result
(0 when no breakdown was produced). -/
def pctSumOf (r : Except PyError (Option LanguageBreakdown)) : ℚ :=
  match r with
  | .ok (some b) => pctSum b
  | _ => 0

/-- Sample server behaviour: every contributors page holds 100 entries. -/
def resp0 : ℕ → ContribPage := fun _ => .ok (List.replicate 100 "c")

/-- Sample server behaviour: nine pages of 40 contributors, then a page of
190, then empty pages.  Reaches page 11 with running total 550. -/
def resp1 : ℕ → ContribPage := fun p =>
  if p ≤ 9 then .ok (List.replicate 40 "c")
  else if p = 10 then .ok (List.replicate 190 "c")
  else .ok []

/-- Sample metadata whose keywords fetch failed (`None`) and whose labels
fetch succeeded with the count 0; everything else present. -/
def md0 : Metadata :=
  { name := "widget"
    owner := "acme"
    organization := some "acme"
    stars := 10
    watchers := 10
    forks := 2
    open_issues := 1
    default_branch := "main"
    description := some "a widget"
    html_url := some "https://github.com/acme/widget"
    keywords := none
    contributors_count := some 5
    readme := some "hello"
    labels_count := some 0 }

/-- Sample metadata with every optional fetch failed except the contributor
count. -/
def md1 : Metadata :=
  { name := "widget"
    owner := "acme"
    organization := none
    stars := 10
    watchers := 10
    forks := 2
    open_issues := 1
    default_branch := "main"
    description := none
    html_url := none
    keywords := none
    contributors_count := some 5
    readme := none
    labels_count := none }

/-- Sample repository record (used as a settled outcome of one batch item). -/
def rec0 : RepositoryRecord :=
  { name := "widget"
    owner := "acme"
    organization := none
    stars := 10
    watchers := 10
    forks := 2
    open_issues := 1
    default_branch := "main"
    description := "a widget"
    html_url := "https://github.com/acme/widget"
    contributors_count := 5
    keywords := none
    languages_info := Sum.inr "Linguagens não disponíveis"
    readme := "hello"
    labels_count := Sum.inl 3 }

/-- Sixty distinct languages of one byte each: the counterexample input on
which the rounded percentages sum to 100.2. -/
def cexLangs : List (String × ℕ) := (List.range 60).map (fun i => (toString i, 1))

/-- The breakdown `format_languages` produces for the single-language dict
mapping "A" to 4 bytes. -/
def bA : LanguageBreakdown :=
  { total_bytes := 4
    languages := [{ language := "A", bytes := 4, percentage := 100 }]
    description := langDescription }

/-! ## Theorems -/

theorem collect_results_foldl (outcomes : List (Except PyError (Option RepositoryRecord)))
    (acc : List RepositoryRecord) :
    outcomes.foldl (fun all_metadata o =>
      match o with
      | .ok (some data) => all_metadata ++ [data]
      | _ => all_metadata) acc = acc ++ outcomes.filterMap okRecord := by
  induction outcomes generalizing acc with
  | nil => simp
  | cons o rest ih =>
    cases o with
    | error e => simp [okRecord, ih]
    | ok v =>
      cases v with
      | none => simp [okRecord, ih]
      | some d => simp [okRecord, ih]

theorem collect_results_eq (outcomes : List (Except PyError (Option RepositoryRecord))) :
    collect_results outcomes = outcomes.filterMap okRecord := by
  simpa [collect_results] using collect_results_foldl outcomes []

/-- C1: for every repository whose metadata fetch succeeds, `process_repo`
returns no record exactly when the contributor count is unavailable or
`min_contributors` is set and the count is strictly below it; with
`min_contributors` unset, only an unavailable count excludes. -/
theorem c1_contributor_filter (md : Metadata) (langs : LangMap) (mc : Option ℤ) :
    (process_repo (some md) langs mc = Except.ok none ↔
      md.contributors_count = none ∨
        ∃ m, mc = some m ∧ ∃ c, md.contributors_count = some c ∧ (c : ℤ) < m) ∧
    (process_repo (some md) langs none = Except.ok none ↔
      md.contributors_count = none) := by
  have main : ∀ mc' : Option ℤ,
      (process_repo (some md) langs mc' = Except.ok none ↔
        md.contributors_count = none ∨
          ∃ m, mc' = some m ∧ ∃ c, md.contributors_count = some c ∧ (c : ℤ) < m) := by
    intro mc'
    cases hcc : md.contributors_count with
    | none => simp [process_repo, hcc]
    | some c =>
      by_cases hb : belowMin c mc' = true
      · cases mc' with
        | none => simp [belowMin] at hb
        | some m =>
          simp only [belowMin, decide_eq_true_eq] at hb
          simp [process_repo, hcc, belowMin, hb]
      · have hb' : belowMin c mc' = false := by
          cases hbv : belowMin c mc' <;> simp_all
        cases hli : languagesInfo langs with
        | error e =>
          simp only [process_repo, hcc, hb', if_false, Bool.false_eq_true, hli]
          cases mc' with
          | none => simp
          | some m =>
            simp only [belowMin, decide_eq_true_eq, Bool.decide_eq_false,
              decide_eq_false_iff_not, not_lt] at hb'
            simp_all
        | ok li =>
          simp only [process_repo, hcc, hb', if_false, Bool.false_eq_true, hli]
          cases mc' with
          | none => simp
          | some m =>
            simp only [belowMin, decide_eq_true_eq, Bool.decide_eq_false,
              decide_eq_false_iff_not, not_lt] at hb'
            simp_all
  exact ⟨main mc, by simpa using main none⟩

theorem c1_witness : ¬ (process_repo (some md0) none none = Except.ok none) := fun hc =>
  absurd ((c1_contributor_filter md0 none none).2.mp hc) (by decide)

/-- C2: when the metadata fetch fails (`get_repo_metadata` returns `None`),
`process_repo` evaluates `metadata["contributors_count"]` on `None` and
raises `TypeError` — for every outcome of the other fetches — instead of
reporting the repository as unavailable without raising. -/
theorem c2_metadata_failure_raises (langs : LangMap) (mc : Option ℤ) :
    process_repo none langs mc =
      Except.error (PyError.typeError "TypeError: NoneType object is not subscriptable") :=
  rfl

/-- C3: if a batch settles with exactly one item raising and every other
item returning normally, the collector omits the raising item, keeps exactly
the non-excluded records of the others, and completes the whole batch. -/
theorem c3_failure_isolation (pre post : List (Except PyError (Option RepositoryRecord)))
    (e : PyError) (h : ∀ o ∈ pre ++ post, isOkOutcome o = true) :
    collect_results (pre ++ Except.error e :: post) =
      (pre ++ post).filterMap okRecord ∧
    (collect_results (pre ++ Except.error e :: post)).length ≤ (pre ++ post).length := by
  have heq : collect_results (pre ++ Except.error e :: post) =
      (pre ++ post).filterMap okRecord := by
    rw [collect_results_eq]
    simp [List.filterMap_append, List.filterMap_cons, okRecord]
  refine ⟨heq, ?_⟩
  rw [heq]
  exact List.length_filterMap_le _ _

theorem c3_witness :
    collect_results
        [Except.ok (some rec0), Except.error PyError.zeroDivision, Except.ok none] =
      ([Except.ok (some rec0), Except.ok none] :
        List (Except PyError (Option RepositoryRecord))).filterMap okRecord ∧
    (collect_results
        [Except.ok (some rec0), Except.error PyError.zeroDivision, Except.ok none]).length ≤
      ([Except.ok (some rec0), Except.ok none] :
        List (Except PyError (Option RepositoryRecord))).length :=
  c3_failure_isolation [Except.ok (some rec0)] [Except.ok none] PyError.zeroDivision
    (by decide)

/-- C8: the empty languages dict and the `None` returned by a failed
languages fetch both yield no breakdown, without reaching the division. -/
theorem c8_empty_languages :
    format_languages none = Except.ok none ∧
    format_languages (some []) = Except.ok none :=
  ⟨rfl, rfl⟩

/-- C9 counterexample: the claim asserts a minimum pool size of 1 on every
host, but with one parallel-execution unit and `threads` unset the source
computes `cpu_count // 2 = 0` — no minimum is applied. -/
theorem c9_counterexample :
    num_threads none 1 = 0 ∧ ¬ (1 ≤ num_threads none 1) := by
  decide

/-- C9 amended: with `threads` unset the pool bound is `cpu_count // 2`
with no minimum clamp; it is at least 1 only for hosts with at least two
parallel-execution units, and on a single-unit host it is 0. -/
theorem c9_default_threads (cpu : ℕ) (h : 2 ≤ cpu) :
    num_threads none cpu = cpu / 2 ∧ 1 ≤ num_threads none cpu ∧
    num_threads none 1 = 0 := by
  refine ⟨rfl, ?_, rfl⟩
  show 1 ≤ cpu / 2
  omega

theorem c9_witness :
    num_threads none 2 = 2 / 2 ∧ 1 ≤ num_threads none 2 ∧
    num_threads none 1 = 0 :=
  c9_default_threads 2 (by decide)

theorem renderContrib_11_550 :
    renderContrib (ContribRaw.estimatedAt 11 550) = some ⟨605, true⟩ := by
  simp only [renderContrib]
  norm_num
  decide

set_option maxRecDepth 8192 in
theorem resp1_reaches_page_11 :
    contribLoop resp1 (maxPages + 1) 1 0 = ContribRaw.estimatedAt 11 550 := by
  decide

/-- C4: whenever a fetched page pushes the incremented page index past
`max_pages` or the running total past `estimation_threshold`, the loop stops
with an estimated result whose count is the average per-page density over the
pages fetched so far times the page index reached, truncated — and such a
count can exceed the threshold (the spec scenario: page 11, running total
550, yields 605 > 400, not the raw total 550). -/
theorem c4_estimation (resp : ℕ → ContribPage) (page total fuel : ℕ) (l : List String)
    (h1 : resp page = ContribPage.ok l) (h2 : l.isEmpty = false)
    (h3 : maxPages < page + 1 ∨ estimationThreshold < total + l.length) :
    contribLoop resp (fuel + 1) page total =
      ContribRaw.estimatedAt (page + 1) (total + l.length) ∧
    renderContrib (ContribRaw.estimatedAt (page + 1) (total + l.length)) =
      some ⟨(⌊((total + l.length : ℕ) : ℚ) / (((page + 1 : ℕ) : ℚ) - 1) *
        ((page + 1 : ℕ) : ℚ)⌋).toNat, true⟩ ∧
    (∃ r, get_repo_contributors r = some ⟨605, true⟩ ∧
      estimationThreshold < 605 ∧ (605 : ℕ) ≠ 550) := by
  refine ⟨?_, rfl, ?_⟩
  · rw [contribLoop, h1]
    simp only [h2, Bool.false_eq_true, if_false]
    rw [if_pos h3]
  · refine ⟨resp1, ?_, by decide, by decide⟩
    rw [get_repo_contributors, resp1_reaches_page_11, renderContrib_11_550]

theorem c4_witness :
    contribLoop resp0 (0 + 1) 10 450 =
      ContribRaw.estimatedAt (10 + 1) (450 + (List.replicate 100 "c").length) ∧
    renderContrib (ContribRaw.estimatedAt (10 + 1) (450 + (List.replicate 100 "c").length)) =
      some ⟨(⌊((450 + (List.replicate 100 "c").length : ℕ) : ℚ) /
        (((10 + 1 : ℕ) : ℚ) - 1) * ((10 + 1 : ℕ) : ℚ)⌋).toNat, true⟩ ∧
    (∃ r, get_repo_contributors r = some ⟨605, true⟩ ∧
      estimationThreshold < 605 ∧ (605 : ℕ) ≠ 550) :=
  c4_estimation resp0 10 450 0 (List.replicate 100 "c") rfl (by decide) (by decide)

/-- C10: whenever the loop of `get_repo_contributors` stops in the
estimating branch — the only place the extrapolation
`total / (page - 1) * page` is evaluated — the page counter has already been
incremented past the first fetched page, so `page ≥ 2`, the denominator
`page - 1 ≥ 1`, and the division is never by zero (runs start at page 1). -/
theorem c10_denominator_positive (resp : ℕ → ContribPage) (fuel page total p t : ℕ)
    (hpage : 1 ≤ page)
    (h : contribLoop resp fuel page total = ContribRaw.estimatedAt p t) :
    2 ≤ p ∧ 1 ≤ p - 1 ∧ ((p : ℚ) - 1 ≠ 0) := by
  have key : 2 ≤ p := by
    induction fuel generalizing page total with
    | zero => simp [contribLoop] at h
    | succ n ih =>
      rw [contribLoop] at h
      cases hr : resp page with
      | rateLimited => rw [hr] at h; simp at h
      | otherError => rw [hr] at h; simp at h
      | ok contributors =>
        rw [hr] at h
        by_cases he : contributors.isEmpty
        · simp [he] at h
        · simp only [he, if_false, Bool.false_eq_true] at h
          by_cases hc : maxPages < page + 1 ∨ estimationThreshold < total + contributors.length
          · rw [if_pos hc] at h
            cases h
            omega
          · rw [if_neg hc] at h
            exact ih (page + 1) (total + contributors.length) (by omega) h
  refine ⟨key, by omega, ?_⟩
  have h2 : (2 : ℚ) ≤ (p : ℚ) := by exact_mod_cast key
  intro h0
  have h1 : (p : ℚ) = 1 := by linarith [sub_eq_zero.mp h0]
  linarith

set_option maxRecDepth 8192 in
theorem c10_witness : 2 ≤ 6 ∧ 1 ≤ 6 - 1 ∧ (((6 : ℕ) : ℚ) - 1 ≠ 0) :=
  c10_denominator_positive resp0 (maxPages + 1) 1 0 6 500 (by decide) (by decide)

/-- C5 counterexample: on metadata whose keywords fetch failed (`None`) and
whose labels fetch succeeded with count 0, the returned record carries
`keywords = None` — no placeholder string — while the successfully fetched
`labels_count = 0` is replaced by a placeholder instead of being kept. -/
theorem c5_counterexample :
    (okRecord (process_repo (some md0) none none)).map (fun r => r.keywords) =
      some none ∧
    (okRecord (process_repo (some md0) none none)).map (fun r => r.labels_count) =
      some (Sum.inr "Labels não disponíveis") ∧
    md0.keywords = none ∧ md0.labels_count = some 0 :=
  ⟨rfl, rfl, rfl, rfl⟩

theorem format_languages_pos (l : List (String × ℕ)) (hne : l.isEmpty = false)
    (hnz : (l.map (fun p => p.2)).sum ≠ 0) :
    format_languages (some l) = Except.ok (some {
      total_bytes := (l.map (fun p => p.2)).sum
      languages := (l.mergeSort (fun a b => decide (b.2 ≤ a.2))).map (fun p =>
        { language := p.1
          bytes := p.2
          percentage := round2 (((p.2 : ℚ)) /
            ((((l.map (fun p => p.2)).sum : ℕ) : ℚ)) * 100) })
      description := langDescription }) := by
  simp only [format_languages, hne, Bool.false_eq_true, if_false, hnz, ite_false]

theorem format_languages_inv {l : List (String × ℕ)} {b : LanguageBreakdown}
    (h : format_languages (some l) = Except.ok (some b)) :
    l.isEmpty = false ∧ (l.map (fun p => p.2)).sum ≠ 0 ∧
    b.total_bytes = (l.map (fun p => p.2)).sum ∧
    b.languages = (l.mergeSort (fun a b => decide (b.2 ≤ a.2))).map (fun p =>
      { language := p.1
        bytes := p.2
        percentage := round2 (((p.2 : ℚ)) /
          ((((l.map (fun p => p.2)).sum : ℕ) : ℚ)) * 100) }) := by
  by_cases hne : l.isEmpty
  · simp [format_languages, hne] at h
  · have hne' : l.isEmpty = false := by simpa using hne
    by_cases hnz : (l.map (fun p => p.2)).sum = 0
    · simp [format_languages, hne', hnz] at h
    · rw [format_languages_pos l hne' hnz] at h
      simp only [Except.ok.injEq, Option.some.injEq] at h
      subst h
      exact ⟨hne', hnz, rfl, rfl⟩

theorem format_languages_A4 :
    format_languages (some [("A", 4)]) = Except.ok (some bA) := by
  rw [format_languages_pos [("A", 4)] rfl (by decide)]
  simp only [List.mergeSort_singleton, List.map_cons, List.map_nil]
  norm_num [round2, round_eq, bA, langDescription]

/-- C5 amended: in every record `process_repo` returns — for every outcome
of the languages fetch — the fields description, html_url, readme,
labels_count and languages_info are the fetched value when it is truthy
(for languages_info, the formatted breakdown of a truthy languages dict)
and an explicit placeholder string when the fetch failed or the value is
falsy (so a fetched empty string or a fetched labels count of 0 is also
replaced); keywords and organization are passed through unchanged and may
be null. -/
theorem c5_field_defaults (md : Metadata) (languages : LangMap) (mc : Option ℤ)
    (r : RepositoryRecord)
    (h : process_repo (some md) languages mc = Except.ok (some r)) :
    (md.description = none ∨ md.description = some "" →
      r.description = "Descrição não disponível") ∧
    (∀ s, md.description = some s → s.isEmpty = false → r.description = s) ∧
    (md.html_url = none ∨ md.html_url = some "" →
      r.html_url = "Link não disponível") ∧
    (∀ s, md.html_url = some s → s.isEmpty = false → r.html_url = s) ∧
    (md.readme = none ∨ md.readme = some "" →
      r.readme = "README não disponível") ∧
    (∀ s, md.readme = some s → s.isEmpty = false → r.readme = s) ∧
    (md.labels_count = none ∨ md.labels_count = some 0 →
      r.labels_count = Sum.inr "Labels não disponíveis") ∧
    (∀ n, md.labels_count = some n → n ≠ 0 → r.labels_count = Sum.inl n) ∧
    (pyTruthyLangs languages = false →
      r.languages_info = Sum.inr "Linguagens não disponíveis") ∧
    (∀ lb, pyTruthyLangs languages = true →
      format_languages languages = Except.ok lb → r.languages_info = Sum.inl lb) ∧
    r.keywords = md.keywords ∧
    r.organization = md.organization := by
  have hrec : ∃ c li, md.contributors_count = some c ∧ belowMin c mc = false ∧
      languagesInfo languages = Except.ok li ∧ r = mkRecord md c li := by
    cases hcc : md.contributors_count with
    | none => simp [process_repo, hcc] at h
    | some c =>
      cases hbm : belowMin c mc with
      | true => simp [process_repo, hcc, hbm] at h
      | false =>
        cases hli : languagesInfo languages with
        | error e => simp [process_repo, hcc, hbm, hli] at h
        | ok li =>
          simp only [process_repo, hcc, hbm, Bool.false_eq_true, if_false, hli,
            Except.ok.injEq, Option.some.injEq] at h
          exact ⟨c, li, rfl, hbm, rfl, h.symm⟩
  obtain ⟨c, li, hcc, hbm, hli, rfl⟩ := hrec
  refine ⟨?_, ?_, ?_, ?_, ?_, ?_, ?_, ?_, ?_, ?_, rfl, rfl⟩
  · rintro (hd | hd)
    · simp [mkRecord, pyStrDefault, hd]
    · simp only [mkRecord, hd]
      rfl
  · intro s hs hne
    simp [mkRecord, pyStrDefault, hs, hne]
  · rintro (hd | hd)
    · simp [mkRecord, pyStrDefault, hd]
    · simp only [mkRecord, hd]
      rfl
  · intro s hs hne
    simp [mkRecord, pyStrDefault, hs, hne]
  · rintro (hd | hd)
    · simp [mkRecord, pyStrDefault, hd]
    · simp only [mkRecord, hd]
      rfl
  · intro s hs hne
    simp [mkRecord, pyStrDefault, hs, hne]
  · rintro (hd | hd) <;> simp [mkRecord, pyLabelsDefault, hd]
  · intro n hn hne
    simp [mkRecord, pyLabelsDefault, hn, hne]
  · intro hf
    have hplain : languagesInfo languages =
        Except.ok (Sum.inr "Linguagens não disponíveis") := by
      simp [languagesInfo, hf]
    rw [hplain] at hli
    simp only [Except.ok.injEq] at hli
    simp [mkRecord, hli]
  · intro lb ht hfmt
    have hinl : languagesInfo languages = Except.ok (Sum.inl lb) := by
      simp [languagesInfo, ht, hfmt, Except.map]
    rw [hinl] at hli
    simp only [Except.ok.injEq] at hli
    simp [mkRecord, hli]

theorem c5_witness :
    (md1.description = none ∨ md1.description = some "" →
      (mkRecord md1 5 (Sum.inl (some bA))).description = "Descrição não disponível") ∧
    (∀ s, md1.description = some s → s.isEmpty = false →
      (mkRecord md1 5 (Sum.inl (some bA))).description = s) ∧
    (md1.html_url = none ∨ md1.html_url = some "" →
      (mkRecord md1 5 (Sum.inl (some bA))).html_url = "Link não disponível") ∧
    (∀ s, md1.html_url = some s → s.isEmpty = false →
      (mkRecord md1 5 (Sum.inl (some bA))).html_url = s) ∧
    (md1.readme = none ∨ md1.readme = some "" →
      (mkRecord md1 5 (Sum.inl (some bA))).readme = "README não disponível") ∧
    (∀ s, md1.readme = some s → s.isEmpty = false →
      (mkRecord md1 5 (Sum.inl (some bA))).readme = s) ∧
    (md1.labels_count = none ∨ md1.labels_count = some 0 →
      (mkRecord md1 5 (Sum.inl (some bA))).labels_count =
        Sum.inr "Labels não disponíveis") ∧
    (∀ n, md1.labels_count = some n → n ≠ 0 →
      (mkRecord md1 5 (Sum.inl (some bA))).labels_count = Sum.inl n) ∧
    (pyTruthyLangs (some [("A", 4)]) = false →
      (mkRecord md1 5 (Sum.inl (some bA))).languages_info =
        Sum.inr "Linguagens não disponíveis") ∧
    (∀ lb, pyTruthyLangs (some [("A", 4)]) = true →
      format_languages (some [("A", 4)]) = Except.ok lb →
      (mkRecord md1 5 (Sum.inl (some bA))).languages_info = Sum.inl lb) ∧
    (mkRecord md1 5 (Sum.inl (some bA))).keywords = md1.keywords ∧
    (mkRecord md1 5 (Sum.inl (some bA))).organization = md1.organization :=
  c5_field_defaults md1 (some [("A", 4)]) none (mkRecord md1 5 (Sum.inl (some bA))) (by
    simp [process_repo, md1, belowMin, languagesInfo, pyTruthyLangs, format_languages_A4,
      Except.map])

/-- C6 counterexample: on the non-empty mapping whose only byte count is 0,
the source reaches `bytes_used / total_bytes` with `total_bytes = 0` and
raises `ZeroDivisionError` — no breakdown is returned at all. -/
theorem c6_counterexample :
    format_languages (some [("X", 0)]) = Except.error PyError.zeroDivision :=
  rfl

/-- C6 amended: for every non-empty mapping whose byte counts are not all
zero, `format_languages` returns a breakdown whose entries are sorted by
bytes in descending order, whose entries are exactly the input pairs, and
whose total_bytes equals the sum of the input byte counts. -/
theorem c6_breakdown (l : List (String × ℕ)) (hne : l ≠ [])
    (hnz : (l.map (fun p => p.2)).sum ≠ 0) :
    ∃ b, format_languages (some l) = Except.ok (some b) ∧
      b.total_bytes = (l.map (fun p => p.2)).sum ∧
      (b.languages.map (fun e => (e.language, e.bytes))).Perm l ∧
      b.languages.Pairwise (fun x y => y.bytes ≤ x.bytes) := by
  have hne' : l.isEmpty = false := by
    cases l with
    | nil => exact absurd rfl hne
    | cons x xs => rfl
  refine ⟨_, format_languages_pos l hne' hnz, rfl, ?_, ?_⟩
  · have hid : ((fun e : LanguageEntry => (e.language, e.bytes)) ∘
        (fun p : String × ℕ =>
          ({ language := p.1, bytes := p.2,
             percentage := round2 (((p.2 : ℚ)) /
               ((((l.map (fun p => p.2)).sum : ℕ) : ℚ)) * 100) } : LanguageEntry))) =
        id := funext fun p => rfl
    rw [List.map_map, hid, List.map_id]
    exact List.mergeSort_perm l _
  · have hsorted : (l.mergeSort (fun a b => decide (b.2 ≤ a.2))).Pairwise
        (fun a b => decide (b.2 ≤ a.2) = true) := by
      apply List.sorted_mergeSort
      · intro a b c hab hbc
        simp only [decide_eq_true_eq] at *
        omega
      · intro a b
        simp only [Bool.or_eq_true, decide_eq_true_eq]
        omega
    exact hsorted.map _ (fun a b hab => by
      simpa only [decide_eq_true_eq] using hab)

theorem c6_witness :
    ∃ b, format_languages (some [("A", 2), ("B", 1)]) = Except.ok (some b) ∧
      b.total_bytes = (([("A", 2), ("B", 1)] : List (String × ℕ)).map (fun p => p.2)).sum ∧
      (b.languages.map (fun e => (e.language, e.bytes))).Perm [("A", 2), ("B", 1)] ∧
      b.languages.Pairwise (fun x y => y.bytes ≤ x.bytes) :=
  c6_breakdown [("A", 2), ("B", 1)] (by decide) (by decide)

theorem abs_round2_sub (q : ℚ) : |round2 q - q| ≤ 1 / 200 := by
  have h : |q * 100 - (round (q * 100) : ℚ)| ≤ 1 / 2 := abs_sub_round (q * 100)
  have h2 : |(round (q * 100) : ℚ) - q * 100| ≤ 1 / 2 := by
    rw [abs_sub_comm]
    exact h
  have h3 : round2 q - q = ((round (q * 100) : ℚ) - q * 100) / 100 := by
    rw [round2]
    ring
  rw [h3, abs_div]
  rw [show |(100 : ℚ)| = 100 by norm_num]
  linarith

theorem sum_round2_sub (ps : List ℚ) :
    |(ps.map round2).sum - ps.sum| ≤ (ps.length : ℚ) * (1 / 200) := by
  induction ps with
  | nil => simp
  | cons q rest ih =>
    simp only [List.map_cons, List.sum_cons, List.length_cons]
    have h1 := abs_round2_sub q
    calc |round2 q + (rest.map round2).sum - (q + rest.sum)|
        = |(round2 q - q) + ((rest.map round2).sum - rest.sum)| := by ring_nf
      _ ≤ |round2 q - q| + |(rest.map round2).sum - rest.sum| := abs_add _ _
      _ ≤ 1 / 200 + (rest.length : ℚ) * (1 / 200) := add_le_add h1 ih
      _ = ((rest.length + 1 : ℕ) : ℚ) * (1 / 200) := by push_cast; ring

theorem sum_true_pct (xs : List (String × ℕ)) (T : ℚ) :
    (xs.map (fun p => ((p.2 : ℚ)) / T * 100)).sum =
      (((xs.map (fun p => p.2)).sum : ℕ) : ℚ) / T * 100 := by
  induction xs with
  | nil => simp
  | cons x rest ih =>
    simp only [List.map_cons, List.sum_cons, ih]
    push_cast
    ring

theorem cex_bytes_sum : (cexLangs.map (fun p => p.2)).sum = 60 := by decide

/-- C7 counterexample: on 60 one-byte languages every percentage rounds
166.66…% / 60 up to 1.67, so the percentages sum to 100.2 — farther than 0.1
from 100. -/
theorem c7_counterexample :
    pctSumOf (format_languages (some cexLangs)) = 501 / 5 ∧
    ¬ |(501 / 5 : ℚ) - 100| ≤ 1 / 10 := by
  constructor
  · rw [format_languages_pos cexLangs (by decide) (by rw [cex_bytes_sum]; decide)]
    rw [pctSumOf, pctSum]
    simp only [List.map_map]
    rw [((List.mergeSort_perm cexLangs (fun a b => decide (b.2 ≤ a.2))).map _).sum_eq]
    have hall : ∀ p ∈ cexLangs, p.2 = 1 := by decide
    have hrepl : cexLangs.map ((fun e : LanguageEntry => e.percentage) ∘
        (fun p : String × ℕ =>
          ({ language := p.1, bytes := p.2,
             percentage := round2 (((p.2 : ℚ)) /
               ((((cexLangs.map (fun p => p.2)).sum : ℕ) : ℚ)) * 100) } : LanguageEntry))) =
        List.replicate cexLangs.length (round2 ((1 : ℚ) / ((60 : ℕ) : ℚ) * 100)) := by
      rw [← List.map_const']
      apply List.map_congr_left
      intro p hp
      show round2 (((p.2 : ℚ)) /
        ((((cexLangs.map (fun p => p.2)).sum : ℕ) : ℚ)) * 100) = _
      rw [hall p hp, cex_bytes_sum]
      norm_num
    rw [hrepl, List.sum_replicate]
    rw [show cexLangs.length = 60 from rfl]
    rw [show round2 ((1 : ℚ) / ((60 : ℕ) : ℚ) * 100) = 167 / 100 by
      norm_num [round2, round_eq]]
    rw [nsmul_eq_mul]
    norm_num
  · have habs : |(501 / 5 : ℚ) - 100| = 1 / 5 := by
      rw [show (501 / 5 : ℚ) - 100 = 1 / 5 by norm_num]
      exact abs_of_nonneg (by norm_num)
    rw [habs]
    norm_num

/-- C7 amended: whenever `format_languages` returns a breakdown, the
percentages sum to within 0.005 per entry of 100 (each percentage carries at
most half of the final retained 0.01 digit as rounding error). -/
theorem c7_percentage_sum (l : List (String × ℕ)) (b : LanguageBreakdown)
    (h : format_languages (some l) = Except.ok (some b)) :
    |pctSum b - 100| ≤ (b.languages.length : ℚ) / 200 := by
  obtain ⟨hne, hnz, htot, hlang⟩ := format_languages_inv h
  have hT : ((((l.map (fun p => p.2)).sum : ℕ)) : ℚ) ≠ 0 := Nat.cast_ne_zero.mpr hnz
  have hmap : b.languages.map (fun e => e.percentage) =
      ((l.mergeSort (fun a b => decide (b.2 ≤ a.2))).map (fun p =>
        ((p.2 : ℚ)) / ((((l.map (fun p => p.2)).sum : ℕ)) : ℚ) * 100)).map round2 := by
    rw [hlang, List.map_map, List.map_map]
    rfl
  have hsum : ((l.mergeSort (fun a b => decide (b.2 ≤ a.2))).map (fun p =>
      ((p.2 : ℚ)) / ((((l.map (fun p => p.2)).sum : ℕ)) : ℚ) * 100)).sum = 100 := by
    rw [sum_true_pct]
    have hperm : (((l.mergeSort (fun a b => decide (b.2 ≤ a.2))).map
        (fun p => p.2)).sum : ℕ) = ((l.map (fun p => p.2)).sum : ℕ) :=
      ((List.mergeSort_perm l _).map _).sum_eq
    rw [hperm, div_self hT, one_mul]
  have hlen : (b.languages.length : ℚ) =
      (((l.mergeSort (fun a b => decide (b.2 ≤ a.2))).map (fun p =>
        ((p.2 : ℚ)) / ((((l.map (fun p => p.2)).sum : ℕ)) : ℚ) * 100)).length : ℚ) := by
    rw [hlang]
    simp
  calc |pctSum b - 100|
      = |(((l.mergeSort (fun a b => decide (b.2 ≤ a.2))).map (fun p =>
          ((p.2 : ℚ)) / ((((l.map (fun p => p.2)).sum : ℕ)) : ℚ) * 100)).map round2).sum -
         ((l.mergeSort (fun a b => decide (b.2 ≤ a.2))).map (fun p =>
          ((p.2 : ℚ)) / ((((l.map (fun p => p.2)).sum : ℕ)) : ℚ) * 100)).sum| := by
        rw [pctSum, hmap, hsum]
    _ ≤ (((l.mergeSort (fun a b => decide (b.2 ≤ a.2))).map (fun p =>
          ((p.2 : ℚ)) / ((((l.map (fun p => p.2)).sum : ℕ)) : ℚ) * 100)).length : ℚ) *
          (1 / 200) := sum_round2_sub _
    _ = (b.languages.length : ℚ) / 200 := by rw [← hlen]; ring

theorem c7_witness :
    |pctSum bA - 100| ≤ (bA.languages.length : ℚ) / 200 :=
  c7_percentage_sum [("A", 4)] bA format_languages_A4
